import Mathlib

/-!
# Neurobaseline: verification of the dashboard and the drift-detection pipeline model

The first part embeds the visualization dashboard
(`src/frontend/app/page.tsx`): the `Results` contract it loads, the
`SeverityBadge` color selection, the feature drill-down selection logic and
the derived stats row. The second part models the drift-detection core
(baseline estimation, NVI composition, change-point detection, explanation
rendering, result assembly); that code is not part of the repository's
files, so those definitions are modelled from the specification and marked
as such.
-/

namespace Neurobaseline

/-! ## The Result contract and the dashboard (from src/frontend/app/page.tsx) -/

/-- A `{t, value}` point of the contract (`type Point` in page.tsx).
Values are modelled as rationals. -/
structure Point where
  t : String
  value : ℚ
  deriving DecidableEq

/-- An explanation entry of the contract (`type Explanation` in page.tsx).
The severity is an arbitrary string on the dashboard side. -/
structure Explanation where
  t : String
  severity : String
  text : String
  deriving DecidableEq

/-- The loaded `Results` contract (`type Results` in page.tsx); the
`features` record is modelled as an association list whose key order is the
object's key order. -/
structure Results where
  nvi : List Point
  change_points : List String
  features : List (String × List Point)
  explanations : List Explanation

/-- A color scheme of the `SeverityBadge` component (`bg`, `text`, `border`). -/
structure ColorScheme where
  bg : String
  text : String
  border : String
  deriving DecidableEq

/-- `colors.high` in `SeverityBadge`. -/
def highColors : ColorScheme :=
  ⟨"rgba(239, 68, 68, 0.1)", "#ef4444", "rgba(239, 68, 68, 0.3)"⟩

/-- `colors.medium` in `SeverityBadge`. -/
def mediumColors : ColorScheme :=
  ⟨"rgba(245, 158, 11, 0.1)", "#f59e0b", "rgba(245, 158, 11, 0.3)"⟩

/-- `colors.low` in `SeverityBadge`. -/
def lowColors : ColorScheme :=
  ⟨"rgba(34, 197, 94, 0.1)", "#22c55e", "rgba(34, 197, 94, 0.3)"⟩

/-- The `colors` record of `SeverityBadge`, as an association list. -/
def severityColors : List (String × ColorScheme) :=
  [("high", highColors), ("medium", mediumColors), ("low", lowColors)]

/-- JavaScript's `String.prototype.toLowerCase()` on the ASCII range:
lower-case every character. -/
def toLowerCase (s : String) : String :=
  ⟨s.data.map Char.toLower⟩

/-- The property names every plain JavaScript object inherits from
`Object.prototype`: bracket access with one of these keys on an object that
lacks it as an own key yields the inherited value (a function, or the
prototype object for `__proto__`), which is truthy — not `undefined`. -/
def objectPrototypeKeys : List String :=
  ["constructor", "hasOwnProperty", "isPrototypeOf", "propertyIsEnumerable",
   "toLocaleString", "toString", "valueOf", "__proto__",
   "__defineGetter__", "__defineSetter__", "__lookupGetter__", "__lookupSetter__"]

/-- What `colors[severity.toLowerCase()] || colors.low` evaluates to: an own
color scheme, or a truthy value inherited from `Object.prototype` (which
`||` keeps, since it is not falsy). -/
inductive JsValue where
  | scheme (c : ColorScheme)
  | inherited
  deriving DecidableEq

/-- The value `SeverityBadge` renders with:
`colors[severity.toLowerCase()] || colors.low` (page.tsx line 99). The
bracket access returns the own property when the key is "high", "medium" or
"low", the inherited truthy value when the key is an `Object.prototype`
property name, and `undefined` otherwise; `||` replaces only the falsy
`undefined` with `colors.low`. -/
def severityBadgeColor (severity : String) : JsValue :=
  match severityColors.lookup (toLowerCase severity) with
  | some c => JsValue.scheme c
  | none =>
      if toLowerCase severity ∈ objectPrototypeKeys then JsValue.inherited
      else JsValue.scheme lowColors

/-- `featureOptions` (page.tsx lines 145-148): the keys of `data.features`,
or `[]` while no data is loaded. -/
def featureOptions (data : Option Results) : List String :=
  match data with
  | none => []
  | some d => d.features.map Prod.fst

/-- The hard-coded initial value of the `featureKey` state (page.tsx line 122). -/
def initialFeatureKey : String := "rt_var"

/-- The effect of page.tsx lines 150-154: when `featureOptions` is non-empty
and does not include the current key, the selection becomes
`featureOptions[0]`; otherwise it is unchanged. -/
def nextFeatureKey (opts : List String) (key : String) : String :=
  match opts with
  | [] => key
  | o :: rest => if key ∈ o :: rest then key else o

/-- What `data.features?.[featureKey]` evaluates to: an own `Point[]`
property, or a truthy non-array value inherited from `Object.prototype`. -/
inductive JsArrayValue where
  | arr (ps : List Point)
  | inheritedObject
  deriving DecidableEq

/-- The outcome of evaluating a dashboard expression: a value, or a thrown
`TypeError`. -/
inductive JsOutcome (α : Type) where
  | value (a : α)
  | typeError
  deriving DecidableEq

/-- `featSeries` (page.tsx line 275): `data.features?.[featureKey] ?? []`.
The bracket access returns the own property when the key is present, the
inherited truthy object when the key is an `Object.prototype` property
name, and `undefined` otherwise; `??` replaces only the nullish `undefined`
with `[]`, so an inherited object passes through. -/
def featSeriesOf (d : Results) (key : String) : JsArrayValue :=
  match d.features.lookup key with
  | some ps => JsArrayValue.arr ps
  | none =>
      if key ∈ objectPrototypeKeys then JsArrayValue.inheritedObject
      else JsArrayValue.arr []

/-- `featX` (page.tsx line 276): `featSeries.map((p) => p.t)` — `.map` on a
non-array inherited object throws a `TypeError`. -/
def featXsOf (d : Results) (key : String) : JsOutcome (List String) :=
  match featSeriesOf d key with
  | JsArrayValue.arr ps => JsOutcome.value (ps.map Point.t)
  | JsArrayValue.inheritedObject => JsOutcome.typeError

/-- JavaScript's `Math.round` on rationals: round half toward positive
infinity. -/
def jsRound (x : ℚ) : ℤ := ⌊x + 1 / 2⌋

/-- The value of the `stats` memo (page.tsx lines 156-170). -/
structure Stats where
  current : ℤ
  avg : ℤ
  trend : String
  changePoints : ℕ
  deriving DecidableEq

/-- The `stats` memo (page.tsx lines 156-170): `null` when `nvi` is empty,
otherwise the rounded last value, the rounded mean of all `nvi` values,
the trend of the last step and the number of change points. -/
def statsOf (d : Results) : Option Stats :=
  if d.nvi.length = 0 then none
  else
    let values := d.nvi.map Point.value
    let current := values.getLastD 0
    let prev := if 2 ≤ values.length then values.getD (values.length - 2) current else current
    let avg := values.sum / (values.length : ℚ)
    let trend := if prev < current then "up" else if current < prev then "down" else "neutral"
    some ⟨jsRound current, jsRound avg, trend, d.change_points.length⟩

/-- A vertical change-point marker of the NVI chart (page.tsx lines 263-273). -/
structure Shape where
  x0 : String
  x1 : String
  y0 : ℚ
  y1 : ℚ

/-- The `shapes` array (page.tsx lines 263-273): one dotted line per entry
of `change_points`, spanning y = 0 to y = 100 at x = the date itself. -/
def shapesOf (d : Results) : List Shape :=
  d.change_points.map (fun cp => ⟨cp, cp, 0, 100⟩)

/-- `nviX` (page.tsx line 260). -/
def nviXs (d : Results) : List String := d.nvi.map Point.t

/-- `nviY` (page.tsx line 261). -/
def nviYs (d : Results) : List ℚ := d.nvi.map Point.value

/-- The insight items the dashboard renders (page.tsx lines 359-368): the
date, severity and text of each explanation, verbatim. -/
def insightItems (d : Results) : List (String × String × String) :=
  d.explanations.map (fun ex => (ex.t, ex.severity, ex.text))

/-- "Features Tracked" in the stats row (page.tsx line 306):
`featureOptions.length`. -/
def featuresTrackedOf (d : Results) : ℕ :=
  (featureOptions (some d)).length

/-- The numeric quantities the stats row displays, as rationals. -/
def statsNumbers (d : Results) : List ℚ :=
  match statsOf d with
  | none => []
  | some s => [(s.current : ℚ), (s.avg : ℚ), (s.changePoints : ℚ)]

/-- The numeric quantities present verbatim in the contract: the `nvi`
values and the raw feature values. -/
def contractNumbers (d : Results) : List ℚ :=
  d.nvi.map Point.value ++ (d.features.map Prod.snd).flatten.map Point.value

/-- The spec's reading of "the dashboard derives no new numeric quantities":
every number the stats row shows appears verbatim in the contract. -/
def rendersOnlyContractNumbers (d : Results) : Prop :=
  ∀ q ∈ statsNumbers d, q ∈ contractNumbers d

/-- The mean of the contract's `nvi` values, as the spec would describe the
"Average NVI" card. -/
def nviMean (d : Results) : ℚ :=
  (d.nvi.map Point.value).sum / ((d.nvi.map Point.value).length : ℚ)

/-- The last of the contract's `nvi` values ("Current NVI"). -/
def nviLast (d : Results) : ℚ := (d.nvi.map Point.value).getLastD 0

/-- The next-to-last `nvi` value, or the last when there is only one. -/
def nviPrev (d : Results) : ℚ :=
  if 2 ≤ (d.nvi.map Point.value).length then
    (d.nvi.map Point.value).getD ((d.nvi.map Point.value).length - 2) (nviLast d)
  else nviLast d

/-- The trend arrow of the stats row, described from the last two values. -/
def trendOf (d : Results) : String :=
  if nviPrev d < nviLast d then "up"
  else if nviLast d < nviPrev d then "down" else "neutral"

/-- A concrete loaded contract with two NVI points, used as the explicit
input of the dashboard theorems. -/
def exampleResults : Results :=
  { nvi := [⟨"2025-01-01", 0⟩, ⟨"2025-01-02", 100⟩]
    change_points := []
    features := []
    explanations := [] }

/-! ## The drift-detection core, modelled from the specification

The repository's files contain only the dashboard; the pipeline below
(BaselineEstimator, NVIComposer, ChangePointDetector, ExplanationGenerator,
ResultAssembler) is modelled from the specification's §4 component designs.
Dates are day numbers (`ℕ`); series values are rationals except the NVI
transform, whose exponential mapping lives over the reals. -/

/-- Modelled from the spec: the error taxonomy of the BaselineEstimator
(§4.2, §7): `InsufficientBaselineData` and `DegenerateBaseline`. -/
inductive BaselineError where
  | insufficientBaselineData
  | degenerateBaseline
  deriving DecidableEq

/-- Modelled from the spec: a frozen robust baseline, location and scale
(§3 `Baseline` with rational location/scale). -/
structure RobustBaseline where
  location : ℚ
  scale : ℚ
  deriving DecidableEq

/-- The median of a list of rationals: the middle element of the sorted
list, or the mean of the two middle elements for even length; 0 for the
empty list. -/
def median (xs : List ℚ) : ℚ :=
  let s := List.insertionSort (fun a b => a ≤ b) xs
  let n := s.length
  if n = 0 then 0
  else if n % 2 = 1 then s.getD (n / 2) 0
  else (s.getD (n / 2 - 1) 0 + s.getD (n / 2) 0) / 2

/-- The standard normal consistency constant ≈ 1.4826 that scales the
median absolute deviation (§4.2). -/
def madConsistency : ℚ := 14826 / 10000

/-- Modelled from the spec: the BaselineEstimator (§4.2). Fails with
`InsufficientBaselineData` when the reference window has fewer than the
configured minimum number of days; otherwise the location is the median and
the scale the scaled median absolute deviation, and a zero scale fails with
`DegenerateBaseline`. -/
def estimateBaseline (minDays : ℕ) (window : List (ℕ × ℚ)) :
    Except BaselineError RobustBaseline :=
  if window.length < minDays then .error .insufficientBaselineData
  else
    let vals := window.map Prod.snd
    let loc := median vals
    let scale := madConsistency * median (vals.map (fun v => |v - loc|))
    if scale = 0 then .error .degenerateBaseline
    else .ok ⟨loc, scale⟩

/-- Modelled from the spec: the per-feature baseline pass of the pipeline
(§7): each feature is `(name, reference window, weight)`; a feature whose
estimate fails with `InsufficientBaselineData` is excluded, a
`DegenerateBaseline` is recovered by substituting the configured scale
floor. -/
def baselinePass (minDays : ℕ) (scaleFloor : ℚ)
    (feats : List (String × List (ℕ × ℚ) × ℚ)) :
    List (String × RobustBaseline × ℚ) :=
  feats.filterMap (fun f =>
    match estimateBaseline minDays f.2.1 with
    | .ok b => some (f.1, b, f.2.2)
    | .error .degenerateBaseline =>
        some (f.1, ⟨median (f.2.1.map Prod.snd), scaleFloor⟩, f.2.2)
    | .error .insufficientBaselineData => none)

/-- Modelled from the spec: renormalization of the remaining features'
weights (§4.3, §7): each weight is divided by the total of the remaining
weights. -/
def renormalize (scored : List (String × RobustBaseline × ℚ)) :
    List (String × RobustBaseline × ℚ) :=
  let total := (scored.map (fun e => e.2.2)).sum
  scored.map (fun e => (e.1, e.2.1, e.2.2 / total))

/-- Modelled from the spec: a real-valued frozen baseline, the
normalization anchor of the NVI transform (§3, §4.3). -/
structure Baseline where
  location : ℝ
  scale : ℝ

/-- Modelled from the spec: the standardized deviation
`z = (value − baseline.location) / baseline.scale` (§4.3). -/
noncomputable def zScore (v : ℝ) (b : Baseline) : ℝ :=
  (v - b.location) / b.scale

/-- Modelled from the spec: the per-feature sub-score
`sub = 100 · exp(−k·|z|)` with decay constant `k` (§4.3). -/
noncomputable def subScore (k v : ℝ) (b : Baseline) : ℝ :=
  100 * Real.exp (-(k * |zScore v b|))

/-- Modelled from the spec: the composite NVI of one day (§4.3): the
weighted average of the sub-scores of the features present that day, the
weights renormalized over the present features. An entry is
`(value, baseline, weight)`. -/
noncomputable def compositeNVI (k : ℝ) (present : List (ℝ × Baseline × ℝ)) : ℝ :=
  ((present.map (fun e => e.2.2 * subScore k e.1 e.2.1)).sum) /
    ((present.map (fun e => e.2.2)).sum)

/-- Modelled from the spec: the composite NVI series (§4.3): one point per
day that has at least one feature value; a day with no feature values is
omitted. -/
noncomputable def nviSeries (k : ℝ) (days : List (ℕ × List (ℝ × Baseline × ℝ))) :
    List (ℕ × ℝ) :=
  (days.filter (fun day => !day.2.isEmpty)).map (fun day => (day.1, compositeNVI k day.2))

/-- The cost of one segment: within-segment variance × segment length,
which is the sum of squared deviations from the segment mean (§4.4). -/
def segCost (seg : List ℚ) : ℚ :=
  if seg.length = 0 then 0
  else
    let m := seg.sum / (seg.length : ℚ)
    (seg.map (fun x => (x - m) ^ 2)).sum

/-- The segments a breakpoint list cuts a series into: breakpoint `b` is
the index of the first day of the new segment, so the boundaries are
`0 :: bps ++ [length]`. -/
def segmentsOf (xs : List ℚ) (bps : List ℕ) : List (List ℚ) :=
  ((0 :: bps).zip (bps ++ [xs.length])).map (fun se => (xs.drop se.1).take (se.2 - se.1))

/-- Modelled from the spec: the segmentation cost (§4.4): the sum over
segments of within-segment variance × length, plus the penalty λ per
additional segment. -/
def segmentationCost (lam : ℚ) (xs : List ℚ) (bps : List ℕ) : ℚ :=
  ((segmentsOf xs bps).map segCost).sum + lam * (bps.length : ℚ)

/-- Modelled from the spec: the detector's breakpoint constraints (§4.4):
no two accepted breakpoints closer than `L` days, and no breakpoint within
the first or last `L` days of the series. -/
def admissible (n L : ℕ) (bps : List ℕ) : Prop :=
  bps.Pairwise (fun a b => a + L ≤ b) ∧ ∀ b ∈ bps, L ≤ b ∧ b + L < n

instance admissibleDecidable (n L : ℕ) (bps : List ℕ) : Decidable (admissible n L bps) :=
  inferInstanceAs (Decidable (bps.Pairwise (fun a b => a + L ≤ b) ∧ ∀ b ∈ bps, L ≤ b ∧ b + L < n))

/-- All admissible breakpoint lists over a series of length `n`: the
ascending sublists of `0, …, n−1` that satisfy the constraints. -/
def candidates (n L : ℕ) : List (List ℕ) :=
  (List.range n).sublists.filter (fun bps => decide (admissible n L bps))

/-- One step of the exact minimization: keep the candidate of smaller
segmentation cost, preferring the incumbent on ties (deterministic). -/
def betterOf (lam : ℚ) (xs : List ℚ) (best c : List ℕ) : List ℕ :=
  if segmentationCost lam xs c < segmentationCost lam xs best then c else best

/-- Modelled from the spec: the ChangePointDetector (§4.4): the exact
minimization of the penalized segmentation cost over all admissible
breakpoint lists, starting from the unsegmented series. The result is the
ordered list of breakpoint day indices. -/
def detect (xs : List ℚ) (lam : ℚ) (L : ℕ) : List ℕ :=
  (candidates xs.length L).foldl (betterOf lam xs) []

/-- Modelled from the spec: the magnitude of a breakpoint,
`|mean(segment after) − mean(segment before)|` over the two segments that
meet at it (§4.4). -/
def breakMagnitude (xs : List ℚ) (prev b next : ℕ) : ℚ :=
  |((xs.drop b).take (next - b)).sum / (((xs.drop b).take (next - b)).length : ℚ) -
    ((xs.drop prev).take (b - prev)).sum / (((xs.drop prev).take (b - prev)).length : ℚ)|

/-- Modelled from the spec: the severity enum (§3 `Explanation`). -/
inductive Severity where
  | low
  | medium
  | high
  deriving DecidableEq

/-- The name of a severity, as the contract serializes it. -/
def severityName : Severity → String
  | .low => "low"
  | .medium => "medium"
  | .high => "high"

/-- Modelled from the spec: severity classification of a composite
magnitude against the configured cutoffs (§4.5). -/
def classifySeverity (lowCut highCut : ℚ) (magnitude : ℚ) : Severity :=
  if magnitude < lowCut then .low
  else if magnitude < highCut then .medium
  else .high

/-- Modelled from the spec: the direction of a change (§4.5): decline if
the post-segment mean is below the pre-segment mean, else improvement. -/
inductive Direction where
  | decline
  | improvement
  deriving DecidableEq

/-- The direction of a change point from its two segment means (§4.5). -/
def directionOf (preMean postMean : ℚ) : Direction :=
  if postMean < preMean then .decline else .improvement

/-- The name of a direction, as the explanation text spells it. -/
def directionName : Direction → String
  | .decline => "decline"
  | .improvement => "improvement"

/-- Modelled from the spec: the ExplanationGenerator's fixed text template
(§4.5), parameterized by date, severity, direction and the attributed
feature names; there is no randomized phrasing. -/
def renderText (date : String) (sev : Severity) (dir : Direction)
    (feats : List String) : String :=
  "On " ++ date ++ ", a " ++ severityName sev ++ "-severity " ++ directionName dir ++
    " was detected, attributed to " ++ String.intercalate ", " feats ++ "."

/-- Modelled from the spec: the ResultAssembler's error (§4.6, §7):
`AssemblyInconsistency`. -/
inductive AssemblyError where
  | assemblyInconsistency
  deriving DecidableEq

/-- Modelled from the spec: a ChangePoint of the pipeline (§3): date,
magnitude and contributing features. -/
structure ChangePointRec where
  t : ℕ
  magnitude : ℚ
  contributing : List String

/-- Modelled from the spec: an Explanation of the pipeline (§3): date,
severity and text. -/
structure ExplanationRec where
  t : ℕ
  severity : Severity
  text : String
  deriving DecidableEq

/-- Modelled from the spec: the assembled immutable Result snapshot (§3). -/
structure ResultRec where
  nvi : List (ℕ × ℚ)
  change_points : List ℕ
  features : List (String × List (ℕ × ℚ))
  explanations : List ExplanationRec

instance : DecidableRel (fun a b : ExplanationRec => a.t ≤ b.t) :=
  fun a b => Nat.decLe a.t b.t

instance : IsTotal ExplanationRec (fun a b => a.t ≤ b.t) :=
  ⟨fun a b => Nat.le_total a.t b.t⟩

instance : IsTrans ExplanationRec (fun a b => a.t ≤ b.t) :=
  ⟨fun _ _ _ => Nat.le_trans⟩

instance : DecidableRel (fun a b : ℕ × ℚ => a.1 ≤ b.1) :=
  fun a b => Nat.decLe a.1 b.1

/-- Modelled from the spec: the ResultAssembler (§4.6): order every list by
date ascending, validate that the ChangePoint dates and the Explanation
dates agree, and fail with `AssemblyInconsistency` when they disagree. -/
def assemble (nvi : List (ℕ × ℚ)) (cps : List ChangePointRec)
    (features : List (String × List (ℕ × ℚ))) (exps : List ExplanationRec) :
    Except AssemblyError ResultRec :=
  let nviSorted := List.insertionSort (fun a b => a.1 ≤ b.1) nvi
  let cpDates := List.insertionSort (fun a b => a ≤ b) (cps.map ChangePointRec.t)
  let expsSorted := List.insertionSort (fun a b => a.t ≤ b.t) exps
  if cpDates = expsSorted.map ExplanationRec.t then
    .ok ⟨nviSorted, cpDates, features, expsSorted⟩
  else .error .assemblyInconsistency

/-- A concrete four-day series with one level shift, an explicit input for
the detector theorems. -/
def exampleSeries : List ℚ := [0, 0, 1, 1]

/-- A concrete constant four-day series (zero variance). -/
def exampleConstantSeries : List ℚ := [3, 3, 3, 3]

/-- A concrete one-day composite input: one feature present with weight 1. -/
noncomputable def exampleDays : List (ℕ × List (ℝ × Baseline × ℝ)) :=
  [(0, [(120, ⟨120, 10⟩, 1)])]

/-! ## Dashboard theorems -/

/-- Claim C9 (counterexample): the severity rendering is not total in the
claimed sense: for the severity string "Constructor" — outside the
severity enum — the bracket access hits the `Object.prototype` property
"constructor", a truthy inherited value, so `||` never falls back and the
badge does not render the low-severity color scheme. -/
theorem severity_badge_proto_cex :
    toLowerCase "Constructor" ≠ "high" ∧ toLowerCase "Constructor" ≠ "medium" ∧
    toLowerCase "Constructor" ≠ "low" ∧
    severityBadgeColor "Constructor" = JsValue.inherited ∧
    severityBadgeColor "Constructor" ≠ JsValue.scheme lowColors := by
  refine ⟨by decide, by decide, by decide, ?_, ?_⟩
  · rfl
  · decide

/-- Claim C9 (amended): `SeverityBadge` picks the matching color scheme
when the lower-cased severity is "high", "medium" or "low"; for any other
string it falls back to the low-severity scheme only when the lower-cased
string is not an `Object.prototype` property name — for inherited names
such as "constructor" or "__proto__" the lookup yields the truthy inherited
value and no fallback occurs. -/
theorem severity_badge_cases (s : String) :
    (toLowerCase s = "high" → severityBadgeColor s = JsValue.scheme highColors) ∧
    (toLowerCase s = "medium" → severityBadgeColor s = JsValue.scheme mediumColors) ∧
    (toLowerCase s = "low" → severityBadgeColor s = JsValue.scheme lowColors) ∧
    (toLowerCase s ≠ "high" → toLowerCase s ≠ "medium" → toLowerCase s ≠ "low" →
      toLowerCase s ∈ objectPrototypeKeys → severityBadgeColor s = JsValue.inherited) ∧
    (toLowerCase s ≠ "high" → toLowerCase s ≠ "medium" → toLowerCase s ≠ "low" →
      toLowerCase s ∉ objectPrototypeKeys →
      severityBadgeColor s = JsValue.scheme lowColors) := by
  refine ⟨fun h => ?_, fun h => ?_, fun h => ?_,
    fun h1 h2 h3 hmem => ?_, fun h1 h2 h3 hmem => ?_⟩
  · simp [severityBadgeColor, severityColors, List.lookup, h]
  · simp [severityBadgeColor, severityColors, List.lookup, h]
  · simp [severityBadgeColor, severityColors, List.lookup, h]
  · have e1 : (toLowerCase s == "high") = false := beq_eq_false_iff_ne.mpr h1
    have e2 : (toLowerCase s == "medium") = false := beq_eq_false_iff_ne.mpr h2
    have e3 : (toLowerCase s == "low") = false := beq_eq_false_iff_ne.mpr h3
    simp [severityBadgeColor, severityColors, List.lookup, e1, e2, e3, hmem]
  · have e1 : (toLowerCase s == "high") = false := beq_eq_false_iff_ne.mpr h1
    have e2 : (toLowerCase s == "medium") = false := beq_eq_false_iff_ne.mpr h2
    have e3 : (toLowerCase s == "low") = false := beq_eq_false_iff_ne.mpr h3
    simp [severityBadgeColor, severityColors, List.lookup, e1, e2, e3, hmem]

/-- Claim C10 (counterexample): with an empty feature mapping and the
selected key "constructor" — absent as an own key — the drill-down access
yields the truthy object inherited from `Object.prototype`, `??` does not
fall back to `[]`, and the subsequent `.map` throws a `TypeError` instead
of evaluating to the empty list. -/
theorem feature_drilldown_proto_cex :
    exampleResults.features.lookup "constructor" = none ∧
    featSeriesOf exampleResults "constructor" = JsArrayValue.inheritedObject ∧
    featXsOf exampleResults "constructor" = JsOutcome.typeError ∧
    featXsOf exampleResults "constructor" ≠ JsOutcome.value [] := by
  refine ⟨rfl, ?_, ?_, ?_⟩
  · rfl
  · rfl
  · decide

/-- Claim C10 (amended): the dashboard keeps the selected feature key
consistent with the loaded data: a non-empty feature mapping that does not
contain the current key (the hard-coded initial "rt_var" included) resets
the selection to the mapping's first key and a contained key is kept; when
the mapping is empty or the key absent, the drill-down series evaluates to
the empty list only for keys that are not `Object.prototype` property
names — for inherited names such as "constructor" the access yields the
inherited truthy object and the chart's `.map` throws a `TypeError`. -/
theorem feature_key_drilldown (d : Results) (key o : String) (rest : List String) :
    (featureOptions (some d) = o :: rest → key ∉ featureOptions (some d) →
      nextFeatureKey (featureOptions (some d)) key = o) ∧
    (key ∈ featureOptions (some d) → nextFeatureKey (featureOptions (some d)) key = key) ∧
    (featureOptions (some d) = [] → nextFeatureKey (featureOptions (some d)) key = key) ∧
    (featureOptions (some d) = o :: rest → initialFeatureKey ∉ featureOptions (some d) →
      nextFeatureKey (featureOptions (some d)) initialFeatureKey = o) ∧
    (d.features.lookup key = none → key ∉ objectPrototypeKeys →
      featSeriesOf d key = JsArrayValue.arr [] ∧ featXsOf d key = JsOutcome.value []) ∧
    (d.features = [] → key ∉ objectPrototypeKeys →
      featSeriesOf d key = JsArrayValue.arr [] ∧ featXsOf d key = JsOutcome.value []) ∧
    (d.features.lookup key = none → key ∈ objectPrototypeKeys →
      featSeriesOf d key = JsArrayValue.inheritedObject ∧
      featXsOf d key = JsOutcome.typeError) := by
  refine ⟨fun h hmem => ?_, fun hmem => ?_, fun h => ?_, fun h hmem => ?_,
    fun h hmem => ?_, fun h hmem => ?_, fun h hmem => ?_⟩
  · rw [h] at hmem ⊢
    simp [nextFeatureKey, hmem]
  · cases hopts : featureOptions (some d) with
    | nil => rw [hopts] at hmem; simp at hmem
    | cons a t =>
      rw [hopts] at hmem
      simp [nextFeatureKey, hmem]
  · rw [h]
    rfl
  · rw [h] at hmem ⊢
    simp [nextFeatureKey, hmem]
  · constructor
    · simp [featSeriesOf, featXsOf, h, hmem]
    · simp [featSeriesOf, featXsOf, h, hmem]
  · constructor
    · simp [featSeriesOf, featXsOf, h, hmem, List.lookup]
    · simp [featSeriesOf, featXsOf, h, hmem, List.lookup]
  · constructor
    · simp [featSeriesOf, featXsOf, h, hmem]
    · simp [featSeriesOf, featXsOf, h, hmem]

/-- Claim C1 (counterexample): the dashboard is not a pure consumer in the
claimed sense: on a loaded contract whose NVI values are 0 and 100, the
stats row derives and displays 50 (the rounded mean), a numeric quantity
that appears nowhere in the contract. -/
theorem dashboard_aggregates_cex : ¬ rendersOnlyContractNumbers exampleResults := by
  intro h
  have hstats : statsOf exampleResults = some ⟨100, 50, "up", 0⟩ := by
    norm_num [statsOf, exampleResults, jsRound, List.getLastD, List.getD]
  have h50 : (50 : ℚ) ∈ statsNumbers exampleResults := by
    simp [statsNumbers, hstats]
  have hc := h 50 h50
  norm_num [contractNumbers, exampleResults] at hc

/-- Claim C1 (amended): the dashboard performs no scoring or change-point
detection — the NVI chart, the change-point markers, and the insight list
render the contract fields verbatim — but its stats row does aggregate the
contract: it derives the rounded last NVI value, the rounded mean of all
NVI values, a trend direction, the change-point count and the feature
count. -/
theorem dashboard_renders_contract (d : Results) (h : d.nvi ≠ []) :
    nviXs d = d.nvi.map Point.t ∧
    nviYs d = d.nvi.map Point.value ∧
    (shapesOf d).map Shape.x0 = d.change_points ∧
    insightItems d = d.explanations.map (fun ex => (ex.t, ex.severity, ex.text)) ∧
    statsOf d = some ⟨jsRound (nviLast d), jsRound (nviMean d), trendOf d,
      d.change_points.length⟩ ∧
    featuresTrackedOf d = d.features.length := by
  have h0 : ¬ d.nvi.length = 0 := by simpa using h
  refine ⟨rfl, rfl, ?_, rfl, ?_, ?_⟩
  · rw [shapesOf, List.map_map]
    exact List.map_id _
  · rw [statsOf, if_neg h0]
    rfl
  · rw [featuresTrackedOf, featureOptions]
    exact List.length_map _ _

/-- Claim C1 (witness): the amended statement at the concrete two-point
contract. -/
theorem dashboard_renders_contract_witness :
    nviXs exampleResults = exampleResults.nvi.map Point.t ∧
    nviYs exampleResults = exampleResults.nvi.map Point.value ∧
    (shapesOf exampleResults).map Shape.x0 = exampleResults.change_points ∧
    insightItems exampleResults =
      exampleResults.explanations.map (fun ex => (ex.t, ex.severity, ex.text)) ∧
    statsOf exampleResults = some ⟨jsRound (nviLast exampleResults),
      jsRound (nviMean exampleResults), trendOf exampleResults,
      exampleResults.change_points.length⟩ ∧
    featuresTrackedOf exampleResults = exampleResults.features.length :=
  dashboard_renders_contract exampleResults (by simp [exampleResults])

/-! ## Pipeline theorems -/

theorem sum_map_div (l : List ℚ) (T : ℚ) :
    (l.map (fun x => x / T)).sum = l.sum / T := by
  induction l with
  | nil => simp
  | cons x t ih => simp [ih, add_div]

/-- Claim C2: for every pipeline run, the assembler either succeeds — and
then the Explanation dates equal the ChangePoint dates in the same
ascending ordering (a bijection, one explanation per change point) — or the
ChangePoint and Explanation date multisets disagree and it fails with
`AssemblyInconsistency` instead of dropping the mismatch silently. -/
theorem assembler_bijection (nvi : List (ℕ × ℚ)) (cps : List ChangePointRec)
    (features : List (String × List (ℕ × ℚ))) (exps : List ExplanationRec) :
    ((exps.map ExplanationRec.t).Perm (cps.map ChangePointRec.t) ∧
      ∃ r, assemble nvi cps features exps = Except.ok r ∧
        r.explanations.map ExplanationRec.t = r.change_points ∧
        r.change_points.Sorted (· ≤ ·) ∧
        r.change_points.Perm (cps.map ChangePointRec.t)) ∨
    (¬ (exps.map ExplanationRec.t).Perm (cps.map ChangePointRec.t) ∧
      assemble nvi cps features exps = Except.error AssemblyError.assemblyInconsistency) := by
  have hassemble : assemble nvi cps features exps =
      if List.insertionSort (fun a b => a ≤ b) (cps.map ChangePointRec.t) =
          (List.insertionSort (fun a b : ExplanationRec => a.t ≤ b.t) exps).map
            ExplanationRec.t then
        Except.ok ⟨List.insertionSort (fun a b => a.1 ≤ b.1) nvi,
          List.insertionSort (fun a b => a ≤ b) (cps.map ChangePointRec.t), features,
          List.insertionSort (fun a b : ExplanationRec => a.t ≤ b.t) exps⟩
      else Except.error AssemblyError.assemblyInconsistency := rfl
  have hpermCp : (List.insertionSort (fun a b => a ≤ b) (cps.map ChangePointRec.t)).Perm
      (cps.map ChangePointRec.t) := List.perm_insertionSort _ _
  have hpermEx : ((List.insertionSort (fun a b : ExplanationRec => a.t ≤ b.t) exps).map
      ExplanationRec.t).Perm (exps.map ExplanationRec.t) :=
    (List.perm_insertionSort _ _).map _
  have hsortCp : (List.insertionSort (fun a b => a ≤ b)
      (cps.map ChangePointRec.t)).Sorted (· ≤ ·) :=
    List.sorted_insertionSort _ _
  have hsortEx : ((List.insertionSort (fun a b : ExplanationRec => a.t ≤ b.t) exps).map
      ExplanationRec.t).Sorted (· ≤ ·) := by
    rw [List.Sorted, List.pairwise_map]
    exact List.sorted_insertionSort _ _
  by_cases h : List.insertionSort (fun a b => a ≤ b) (cps.map ChangePointRec.t) =
      (List.insertionSort (fun a b : ExplanationRec => a.t ≤ b.t) exps).map ExplanationRec.t
  · left
    exact ⟨hpermEx.symm.trans (h ▸ hpermCp),
      ⟨⟨List.insertionSort (fun a b => a.1 ≤ b.1) nvi,
        List.insertionSort (fun a b => a ≤ b) (cps.map ChangePointRec.t), features,
        List.insertionSort (fun a b : ExplanationRec => a.t ≤ b.t) exps⟩,
        by rw [hassemble, if_pos h], h.symm, hsortCp, hpermCp⟩⟩
  · right
    refine ⟨fun hperm => h ?_, by rw [hassemble, if_neg h]⟩
    exact List.eq_of_perm_of_sorted
      (hpermCp.trans ((hperm.symm).trans hpermEx.symm)) hsortCp hsortEx

/-- Claim C7: a reference window shorter than the configured minimum makes
the BaselineEstimator fail with `InsufficientBaselineData` (never a default
baseline); the failure is fatal only for that feature — the baseline pass
excludes the feature and the remaining weights, renormalized, sum to 1. -/
theorem baseline_insufficient_nonfatal (minDays : ℕ) (scaleFloor : ℚ)
    (window : List (ℕ × ℚ)) (hshort : window.length < minDays)
    (feats : List (String × List (ℕ × ℚ) × ℚ)) (name : String) (w : ℚ)
    (hmem : (name, window, w) ∈ feats) (hnodup : (feats.map Prod.fst).Nodup)
    (scored : List (String × RobustBaseline × ℚ))
    (htotal : (scored.map (fun e => e.2.2)).sum ≠ 0) :
    estimateBaseline minDays window = Except.error BaselineError.insufficientBaselineData ∧
    (∀ b2 w2, (name, b2, w2) ∉ baselinePass minDays scaleFloor feats) ∧
    ((renormalize scored).map (fun e => e.2.2)).sum = 1 := by
  have h1 : estimateBaseline minDays window =
      Except.error BaselineError.insufficientBaselineData := by
    unfold estimateBaseline
    rw [if_pos hshort]
  refine ⟨h1, ?_, ?_⟩
  · intro b2 w2 hin
    obtain ⟨a, ha, hfa⟩ := List.mem_filterMap.mp hin
    have hfst : a.1 = name := by
      rcases hest : estimateBaseline minDays a.2.1 with e | bl
      · rw [hest] at hfa
        cases e
        · simp at hfa
        · simp at hfa
          exact hfa.1
      · rw [hest] at hfa
        simp at hfa
        exact hfa.1
    have ha2 : a = (name, window, w) :=
      List.inj_on_of_nodup_map hnodup ha hmem hfst
    rw [ha2] at hfa
    rw [show (name, window, w).2.1 = window from rfl, h1] at hfa
    simp at hfa
  · calc ((renormalize scored).map (fun e => e.2.2)).sum
        = ((scored.map (fun e => e.2.2)).map
            (fun x => x / (scored.map (fun e => e.2.2)).sum)).sum := by
          unfold renormalize
          rw [List.map_map, List.map_map]
          rfl
      _ = (scored.map (fun e => e.2.2)).sum / (scored.map (fun e => e.2.2)).sum :=
          sum_map_div _ _
      _ = 1 := div_self htotal

/-- Claim C8: NVI scoring and explanation rendering are deterministic
two-run properties: identical (value, baseline, weights) yield the
identical sub-score and composite score, and identical (date, severity,
direction, attributed features) yield character-identical explanation
text. -/
theorem scoring_and_text_deterministic (k v1 v2 : ℝ) (b1 b2 : Baseline)
    (present1 present2 : List (ℝ × Baseline × ℝ)) (date1 date2 : String)
    (sev1 sev2 : Severity) (dir1 dir2 : Direction) (attrib1 attrib2 : List String)
    (hv : v1 = v2) (hb : b1 = b2) (hp : present1 = present2) (hdate : date1 = date2)
    (hsev : sev1 = sev2) (hdir : dir1 = dir2) (hattrib : attrib1 = attrib2) :
    subScore k v1 b1 = subScore k v2 b2 ∧
    compositeNVI k present1 = compositeNVI k present2 ∧
    renderText date1 sev1 dir1 attrib1 = renderText date2 sev2 dir2 attrib2 := by
  subst hv hb hp hdate hsev hdir hattrib
  exact ⟨rfl, rfl, rfl⟩

/-- Claim C8 (witness): determinism at a concrete scoring input and a
concrete explanation input. -/
theorem scoring_and_text_deterministic_witness :
    subScore 1 120 ⟨120, 10⟩ = subScore 1 120 ⟨120, 10⟩ ∧
    compositeNVI 1 [(120, ⟨120, 10⟩, 1)] = compositeNVI 1 [(120, ⟨120, 10⟩, 1)] ∧
    renderText "2025-02-10" Severity.high Direction.decline ["reaction_time_var"] =
      renderText "2025-02-10" Severity.high Direction.decline ["reaction_time_var"] :=
  scoring_and_text_deterministic 1 120 120 ⟨120, 10⟩ ⟨120, 10⟩
    [(120, ⟨120, 10⟩, 1)] [(120, ⟨120, 10⟩, 1)] "2025-02-10" "2025-02-10"
    Severity.high Severity.high Direction.decline Direction.decline
    ["reaction_time_var"] ["reaction_time_var"] rfl rfl rfl rfl rfl rfl rfl

/-- Claim C7 (witness): a one-day window against a two-day minimum, inside
a one-feature list, with a concrete renormalization input. -/
theorem baseline_insufficient_nonfatal_witness :
    estimateBaseline 2 [(0, 1)] = Except.error BaselineError.insufficientBaselineData ∧
    (∀ b2 w2, ("rt_var", b2, w2) ∉ baselinePass 2 1 [("rt_var", [(0, 1)], 1)]) ∧
    ((renormalize [("typing_rhythm_var", ⟨1, 1⟩, (2 : ℚ))]).map (fun e => e.2.2)).sum = 1 :=
  baseline_insufficient_nonfatal 2 1 [(0, 1)] (by norm_num)
    [("rt_var", [(0, 1)], 1)] "rt_var" 1 (by simp) (by simp)
    [("typing_rhythm_var", ⟨1, 1⟩, (2 : ℚ))] (by norm_num)

/-! ## NVI range theorems -/

theorem subScore_bounds (k v : ℝ) (b : Baseline) (hk : 0 ≤ k) :
    0 ≤ subScore k v b ∧ subScore k v b ≤ 100 := by
  unfold subScore
  constructor
  · exact mul_nonneg (by norm_num) (Real.exp_nonneg _)
  · have h1 : Real.exp (-(k * |zScore v b|)) ≤ 1 := by
      rw [Real.exp_le_one_iff]
      have h2 : 0 ≤ k * |zScore v b| := mul_nonneg hk (abs_nonneg _)
      linarith
    linarith

theorem compositeNVI_bounds (k : ℝ) (present : List (ℝ × Baseline × ℝ)) (hk : 0 ≤ k)
    (hne : present ≠ []) (hw : ∀ e ∈ present, 0 < e.2.2) :
    0 ≤ compositeNVI k present ∧ compositeNVI k present ≤ 100 := by
  unfold compositeNVI
  have hW : 0 < (present.map (fun e => e.2.2)).sum := by
    apply List.sum_pos
    · intro a ha
      obtain ⟨e, he, rfl⟩ := List.mem_map.mp ha
      exact hw e he
    · simpa using hne
  have hS0 : 0 ≤ (present.map (fun e => e.2.2 * subScore k e.1 e.2.1)).sum := by
    apply List.sum_nonneg
    intro a ha
    obtain ⟨e, he, rfl⟩ := List.mem_map.mp ha
    exact mul_nonneg (hw e he).le (subScore_bounds k e.1 e.2.1 hk).1
  have hS1 : (present.map (fun e => e.2.2 * subScore k e.1 e.2.1)).sum ≤
      100 * (present.map (fun e => e.2.2)).sum := by
    rw [← List.sum_map_mul_left]
    apply List.sum_le_sum
    intro e he
    calc e.2.2 * subScore k e.1 e.2.1
        ≤ e.2.2 * 100 :=
          mul_le_mul_of_nonneg_left (subScore_bounds k e.1 e.2.1 hk).2 (hw e he).le
      _ = 100 * e.2.2 := mul_comm _ _
  refine ⟨div_nonneg hS0 hW.le, ?_⟩
  rw [div_le_iff₀ hW]
  linarith [hS1]

/-- Claim C3: for every finite value and every baseline with positive
scale, the per-feature sub-score lies in [0, 100]; consequently every point
of the composite NVI series (whose days have positive feature weights)
has value in [0, 100]. -/
theorem nvi_in_range (k v : ℝ) (b : Baseline) (hk : 0 ≤ k) (hb : 0 < b.scale)
    (days : List (ℕ × List (ℝ × Baseline × ℝ)))
    (hw : ∀ day ∈ days, ∀ e ∈ day.2, 0 < e.2.2) :
    (0 ≤ subScore k v b ∧ subScore k v b ≤ 100) ∧
    ∀ p ∈ nviSeries k days, 0 ≤ p.2 ∧ p.2 ≤ 100 := by
  refine ⟨subScore_bounds k v b hk, ?_⟩
  intro p hp
  unfold nviSeries at hp
  obtain ⟨day, hday, rfl⟩ := List.mem_map.mp hp
  have hdmem : day ∈ days := List.mem_of_mem_filter hday
  have hne : day.2 ≠ [] := by
    have hfl := List.of_mem_filter hday
    simpa using hfl
  exact compositeNVI_bounds k day.2 hk hne (fun e he => hw day hdmem e he)

/-- Claim C3 (witness): the range statement at a concrete value, baseline
with scale 10, and a one-day composite input of weight 1. -/
theorem nvi_in_range_witness :
    (0 ≤ subScore 1 120 ⟨120, 10⟩ ∧ subScore 1 120 ⟨120, 10⟩ ≤ 100) ∧
    ∀ p ∈ nviSeries 1 exampleDays, 0 ≤ p.2 ∧ p.2 ≤ 100 :=
  nvi_in_range 1 120 ⟨120, 10⟩ zero_le_one (by norm_num) exampleDays
    (by simp [exampleDays]; intros; subst_vars; norm_num)

/-! ## Change-point detector theorems -/

theorem admissible_nil (n L : ℕ) : admissible n L [] :=
  ⟨List.Pairwise.nil, by simp⟩

theorem mem_candidates_admissible (n L : ℕ) (c : List ℕ) (hc : c ∈ candidates n L) :
    admissible n L c :=
  of_decide_eq_true (List.mem_filter.mp hc).2

theorem foldl_betterOf_admissible (lam : ℚ) (xs : List ℚ) (n L : ℕ)
    (l : List (List ℕ)) (acc : List ℕ) (hacc : admissible n L acc)
    (hl : ∀ c ∈ l, admissible n L c) :
    admissible n L (l.foldl (betterOf lam xs) acc) := by
  induction l generalizing acc with
  | nil => exact hacc
  | cons c t ih =>
    rw [List.foldl_cons]
    apply ih
    · unfold betterOf
      split
      · exact hl c (by simp)
      · exact hacc
    · intro x hx
      exact hl x (by simp [hx])

theorem detect_admissible (xs : List ℚ) (lam : ℚ) (L : ℕ) :
    admissible xs.length L (detect xs lam L) := by
  unfold detect
  exact foldl_betterOf_admissible lam xs xs.length L _ [] (admissible_nil _ _)
    (fun c hc => mem_candidates_admissible _ _ c hc)

theorem pairwise_gap_any_two (L : ℕ) (l : List ℕ)
    (hp : l.Pairwise (fun a b => a + L ≤ b)) (hL : 1 ≤ L) :
    ∀ a ∈ l, ∀ b ∈ l, a < b → a + L ≤ b := by
  induction hp with
  | nil => simp
  | cons hx _ ih =>
    intro a ha b hb hab
    rcases List.mem_cons.mp ha with rfl | ha2
    · rcases List.mem_cons.mp hb with rfl | hb2
      · omega
      · exact hx b hb2
    · rcases List.mem_cons.mp hb with rfl | hb2
      · have hba := hx a ha2
        omega
      · exact ih a ha2 b hb2 hab

/-- Claim C4: every breakpoint list the detector returns is strictly
increasing by date, every returned date avoids the first and last `L` days,
and so lies strictly between the first and the last date of the scored
series. -/
theorem detector_dates_strict (xs : List ℚ) (lam : ℚ) (L : ℕ) (hL : 1 ≤ L) :
    (detect xs lam L).Pairwise (· < ·) ∧
    ∀ b ∈ detect xs lam L, L ≤ b ∧ b + L < xs.length ∧ 0 < b ∧ b + 1 < xs.length := by
  obtain ⟨hp, hmem⟩ := detect_admissible xs lam L
  constructor
  · exact hp.imp (fun hab => by omega)
  · intro b hb
    obtain ⟨h1, h2⟩ := hmem b hb
    exact ⟨h1, h2, by omega, by omega⟩

/-- Claim C4 (witness): the date constraints at a concrete four-day series
with `L = 1`. -/
theorem detector_dates_strict_witness :
    (detect exampleSeries 1 1).Pairwise (· < ·) ∧
    ∀ b ∈ detect exampleSeries 1 1,
      1 ≤ b ∧ b + 1 < exampleSeries.length ∧ 0 < b ∧ b + 1 < exampleSeries.length :=
  detector_dates_strict exampleSeries 1 1 le_rfl

/-- Claim C5: any two change points the detector returns are at least the
configured minimum segment length `L` days apart, pairwise in list order
and for every ordered pair of returned dates. -/
theorem detector_min_gap (xs : List ℚ) (lam : ℚ) (L : ℕ) (hL : 1 ≤ L) :
    (detect xs lam L).Pairwise (fun a b => a + L ≤ b) ∧
    ∀ a ∈ detect xs lam L, ∀ b ∈ detect xs lam L, a < b → a + L ≤ b := by
  obtain ⟨hp, _⟩ := detect_admissible xs lam L
  exact ⟨hp, pairwise_gap_any_two L _ hp hL⟩

/-- Claim C5 (witness): the minimum-gap statement at a concrete four-day
series with `L = 1`. -/
theorem detector_min_gap_witness :
    (detect exampleSeries 1 1).Pairwise (fun a b => a + 1 ≤ b) ∧
    ∀ a ∈ detect exampleSeries 1 1, ∀ b ∈ detect exampleSeries 1 1,
      a < b → a + 1 ≤ b :=
  detector_min_gap exampleSeries 1 1 le_rfl

theorem segments_subset (xs : List ℚ) (bps : List ℕ) (seg : List ℚ)
    (hseg : seg ∈ segmentsOf xs bps) : ∀ y ∈ seg, y ∈ xs := by
  unfold segmentsOf at hseg
  obtain ⟨se, _, heq⟩ := List.mem_map.mp hseg
  intro y hy
  rw [← heq] at hy
  exact List.drop_subset _ _ (List.take_subset _ _ hy)

theorem segCost_const (seg : List ℚ) (c : ℚ) (hconst : ∀ y ∈ seg, y = c) :
    segCost seg = 0 := by
  unfold segCost
  split
  · rfl
  · rename_i hne
    have hmean : seg.sum / (seg.length : ℚ) = c := by
      rw [List.sum_eq_card_nsmul seg c hconst, nsmul_eq_mul]
      exact mul_div_cancel_left₀ c (Nat.cast_ne_zero.mpr hne)
    rw [hmean]
    apply List.sum_eq_zero
    intro x hx
    obtain ⟨y, hy, rfl⟩ := List.mem_map.mp hx
    rw [hconst y hy]
    ring

theorem segmentationCost_const (lam : ℚ) (xs : List ℚ) (c : ℚ)
    (hconst : ∀ x ∈ xs, x = c) (bps : List ℕ) :
    segmentationCost lam xs bps = lam * (bps.length : ℚ) := by
  unfold segmentationCost
  have hzero : ((segmentsOf xs bps).map segCost).sum = 0 := by
    apply List.sum_eq_zero
    intro x hx
    obtain ⟨seg, hseg, rfl⟩ := List.mem_map.mp hx
    exact segCost_const seg c (fun y hy => hconst y (segments_subset xs bps seg hseg y hy))
  rw [hzero, zero_add]

theorem foldl_betterOf_keeps_nil (lam : ℚ) (xs : List ℚ) (l : List (List ℕ))
    (hge : ∀ c ∈ l, ¬ segmentationCost lam xs c < segmentationCost lam xs []) :
    l.foldl (betterOf lam xs) [] = [] := by
  induction l with
  | nil => rfl
  | cons c t ih =>
    have hstep : betterOf lam xs [] c = [] := by
      unfold betterOf
      rw [if_neg (hge c (by simp))]
    rw [List.foldl_cons, hstep]
    exact ih (fun x hx => hge x (by simp [hx]))

/-- Claim C6: for every positive penalty, the detector returns the empty
list both on a series shorter than 2·L and on a constant (zero-variance)
series. -/
theorem detector_trivial_empty (xs : List ℚ) (lam : ℚ) (L : ℕ) (c : ℚ)
    (hlam : 0 < lam) :
    (xs.length < 2 * L → detect xs lam L = []) ∧
    ((∀ x ∈ xs, x = c) → detect xs lam L = []) := by
  constructor
  · intro hlen
    obtain ⟨_, hmem⟩ := detect_admissible xs lam L
    cases hd : detect xs lam L with
    | nil => rfl
    | cons b t =>
      have hb := hmem b (by rw [hd]; simp)
      omega
  · intro hconst
    unfold detect
    apply foldl_betterOf_keeps_nil
    intro cc _
    rw [segmentationCost_const lam xs c hconst cc,
      segmentationCost_const lam xs c hconst [], List.length_nil, Nat.cast_zero, mul_zero]
    exact not_lt.mpr (mul_nonneg hlam.le (Nat.cast_nonneg _))

/-- Claim C6 (witness): the trivial-output statement at a concrete constant
four-day series with penalty 1 and `L = 3`. -/
theorem detector_trivial_empty_witness :
    (exampleConstantSeries.length < 2 * 3 → detect exampleConstantSeries 1 3 = []) ∧
    ((∀ x ∈ exampleConstantSeries, x = 3) → detect exampleConstantSeries 1 3 = []) :=
  detector_trivial_empty exampleConstantSeries 1 3 3 one_pos

end Neurobaseline
